import Mathlib

/-!
Shallow embedding of `src/apollo/src/graphql/client.rs`: a minimal GraphQL
cloud client with two domain operations (`get_org_memberships`,
`create_new_graph`) built on a generic executor (`send_query`,
`execute_operation`, `execute_operation_no_variables`).

The JSON serialization library (serde_json) and the HTTP transport are
external black boxes; they are modelled here by an executable JSON value
type with a renderer and a parser (proved to invert the renderer), and by
a `transport` function supplied as a parameter mapping the request body to
a transport outcome.  Rust panics (`panic!`, `Option::unwrap` on `None`,
out-of-bounds indexing) are modelled by an explicit `crash` outcome.
-/

namespace Client

/-- JSON values, with integers for numbers.  Models the serde_json value
universe as used by this client. -/
inductive Json where
  | null : Json
  | bool (b : Bool) : Json
  | num (n : Int) : Json
  | str (s : String) : Json
  | arr (elems : List Json) : Json
  | obj (fields : List (String × Json)) : Json

/-- Decimal digit character for a value below ten. -/
def digitChar (m : Nat) : Char := Char.ofNat (48 + m)

/-- Big-endian decimal digit characters of a natural number. -/
def natChars (n : Nat) : List Char :=
  if n = 0 then ['0'] else ((Nat.digits 10 n).reverse).map digitChar

/-- Decimal rendering of an integer.  Models serde_json number output. -/
def intChars (n : Int) : List Char :=
  if n < 0 then '-' :: natChars n.natAbs else natChars n.natAbs

/-- Hexadecimal digit character for a value below sixteen. -/
def hexChar (m : Nat) : Char :=
  if m < 10 then Char.ofNat (48 + m) else Char.ofNat (87 + m)

/-- JSON escaping of one character, following serde_json: quote and
backslash get a two-character escape, the common control characters get
their short escapes, other control characters a `\u00XX` escape, and
everything else stands for itself. -/
def escChar (c : Char) : List Char :=
  if c = '"' then ['\\', '"']
  else if c = '\\' then ['\\', '\\']
  else if c = '\n' then ['\\', 'n']
  else if c = '\t' then ['\\', 't']
  else if c = '\r' then ['\\', 'r']
  else if c.toNat < 32 then
    ['\\', 'u', '0', '0', hexChar (c.toNat / 16), hexChar (c.toNat % 16)]
  else [c]

/-- Rendering of a JSON string body (without the surrounding quotes). -/
def escBody (cs : List Char) : List Char := (cs.map escChar).flatten

/-- Rendering of a JSON string literal, quotes included. -/
def strChars (s : String) : List Char := '"' :: escBody s.data ++ ['"']

mutual

/-- Compact rendering of a JSON value to characters.  Models
`serde_json::to_string`. -/
def renderJson : Json → List Char
  | .null => "null".data
  | .bool true => "true".data
  | .bool false => "false".data
  | .num n => intChars n
  | .str s => strChars s
  | .arr es => '[' :: renderElems es ++ [']']
  | .obj fs => '{' :: renderFields fs ++ ['}']

/-- Comma-separated rendering of array elements. -/
def renderElems : List Json → List Char
  | [] => []
  | [e] => renderJson e
  | e :: e' :: es => renderJson e ++ ',' :: renderElems (e' :: es)

/-- Comma-separated rendering of object fields. -/
def renderFields : List (String × Json) → List Char
  | [] => []
  | [(k, v)] => strChars k ++ ':' :: renderJson v
  | (k, v) :: f' :: fs => strChars k ++ ':' :: renderJson v ++ ',' :: renderFields (f' :: fs)

end

/-- Rendering of a JSON value to a string. -/
def Json.render (v : Json) : String := ⟨renderJson v⟩

/-- Maximal run of decimal digit characters, together with the rest of
the input. -/
def digitRun : List Char → (List Nat × List Char)
  | [] => ([], [])
  | c :: cs =>
    if 48 ≤ c.toNat ∧ c.toNat ≤ 57 then
      let p := digitRun cs
      ((c.toNat - 48) :: p.1, p.2)
    else ([], c :: cs)

/-- Value of a big-endian digit list. -/
def digitsVal (ds : List Nat) : Nat := ds.foldl (fun a d => 10 * a + d) 0

/-- Parse a natural number written as a non-empty digit run. -/
def parseNat (cs : List Char) : Option (Nat × List Char) :=
  match digitRun cs with
  | ([], _) => none
  | (ds, rest) => some (digitsVal ds, rest)

/-- Parse an integer: an optional minus sign and a digit run. -/
def parseInt (cs : List Char) : Option (Int × List Char) :=
  match cs with
  | '-' :: cs' => (parseNat cs').map (fun p => (-(p.1 : Int), p.2))
  | _ => (parseNat cs).map (fun p => ((p.1 : Int), p.2))

/-- Value of a hexadecimal digit character. -/
def hexVal (c : Char) : Nat :=
  if c.toNat ≤ 57 then c.toNat - 48 else c.toNat - 87

/-- Parse a JSON string body up to the closing quote, undoing escapes. -/
def parseStrBody : List Char → Option (List Char × List Char)
  | [] => none
  | '"' :: rest => some ([], rest)
  | '\\' :: esc =>
    match esc with
    | 'n' :: rest => (parseStrBody rest).map (fun p => ('\n' :: p.1, p.2))
    | 't' :: rest => (parseStrBody rest).map (fun p => ('\t' :: p.1, p.2))
    | 'r' :: rest => (parseStrBody rest).map (fun p => ('\r' :: p.1, p.2))
    | 'u' :: h1 :: h2 :: h3 :: h4 :: rest =>
      (parseStrBody rest).map (fun p =>
        (Char.ofNat (4096 * hexVal h1 + 256 * hexVal h2 + 16 * hexVal h3 + hexVal h4) :: p.1,
         p.2))
    | c :: rest => (parseStrBody rest).map (fun p => (c :: p.1, p.2))
    | [] => none
  | c :: rest => (parseStrBody rest).map (fun p => (c :: p.1, p.2))

mutual

/-- Fuel-indexed parser for one JSON value, returning the value and the
rest of the input.  Dispatches on the first character. -/
def parseValue : Nat → List Char → Option (Json × List Char)
  | 0, _ => none
  | fuel + 1, cs =>
    match cs with
    | [] => none
    | c :: rest =>
      if c = 'n' then
        match rest with
        | 'u' :: 'l' :: 'l' :: r => some (.null, r)
        | _ => none
      else if c = 't' then
        match rest with
        | 'r' :: 'u' :: 'e' :: r => some (.bool true, r)
        | _ => none
      else if c = 'f' then
        match rest with
        | 'a' :: 'l' :: 's' :: 'e' :: r => some (.bool false, r)
        | _ => none
      else if c = '"' then (parseStrBody rest).map (fun p => (.str ⟨p.1⟩, p.2))
      else if c = '[' then
        match rest with
        | ']' :: r => some (.arr [], r)
        | _ => (parseElems fuel rest).map (fun p => (.arr p.1, p.2))
      else if c = '{' then
        match rest with
        | '}' :: r => some (.obj [], r)
        | _ => (parseFields fuel rest).map (fun p => (.obj p.1, p.2))
      else (parseInt (c :: rest)).map (fun p => (.num p.1, p.2))

/-- Fuel-indexed parser for a non-empty comma-separated element list
closed by a bracket. -/
def parseElems : Nat → List Char → Option (List Json × List Char)
  | 0, _ => none
  | fuel + 1, cs =>
    match parseValue fuel cs with
    | none => none
    | some (e, rest) =>
      match rest with
      | ',' :: rest' => (parseElems fuel rest').map (fun p => (e :: p.1, p.2))
      | ']' :: rest' => some ([e], rest')
      | _ => none

/-- Fuel-indexed parser for a non-empty comma-separated field list closed
by a brace. -/
def parseFields : Nat → List Char → Option (List (String × Json) × List Char)
  | 0, _ => none
  | fuel + 1, cs =>
    match cs with
    | '"' :: cs' =>
      match parseStrBody cs' with
      | none => none
      | some (k, rest) =>
        match rest with
        | ':' :: rest' =>
          match parseValue fuel rest' with
          | none => none
          | some (v, rest'') =>
            match rest'' with
            | ',' :: r3 => (parseFields fuel r3).map (fun p => ((⟨k⟩, v) :: p.1, p.2))
            | '}' :: r3 => some ([(⟨k⟩, v)], r3)
            | _ => none
        | _ => none
    | _ => none

end

/-- Parse a complete string as one JSON value.  Models
`serde_json::from_str` at the JSON value level. -/
def Json.parse (s : String) : Option Json :=
  match parseValue (s.length + 1) s.data with
  | some (v, []) => some v
  | _ => none

/-- The head of the input is not a decimal digit (or the input is empty). -/
def noDigitHead : List Char → Prop
  | [] => True
  | c :: _ => ¬(48 ≤ c.toNat ∧ c.toNat ≤ 57)

mutual

/-- Nesting depth of a JSON value; drives the parser fuel bound. -/
def jdepth : Json → Nat
  | .null => 1
  | .bool _ => 1
  | .num _ => 1
  | .str _ => 1
  | .arr es => depthElems es + 1
  | .obj fs => depthFields fs + 1

/-- Nesting depth of an element list. -/
def depthElems : List Json → Nat
  | [] => 0
  | e :: es => max (jdepth e) (depthElems es) + 1

/-- Nesting depth of a field list. -/
def depthFields : List (String × Json) → Nat
  | [] => 0
  | (_, v) :: fs => max (jdepth v) (depthFields fs) + 1

end

/-- Modelled from the spec: `types.rs` is not in the sources; the
membership payload is "nested optional `me` → list of memberships → each
has an account identifier (string)". -/
structure Account where
  id : String

/-- Membership record carrying its account. -/
structure Membership where
  account : Account

/-- The `me` payload: the authenticated user's memberships. -/
structure Me where
  memberships : List Membership

/-- Payload of the membership query: optional `me`. -/
structure GetOrgMembershipData where
  me : Option Me

/-- Modelled from the spec: one entry of the envelope's `errors`
sequence, `{message: string}`. -/
structure GraphqlError where
  message : String

/-- Modelled from the spec: the response envelope has "optional `data: T`
and optional `errors`", instantiated at the membership payload.  The
`data.unwrap()` call in `get_org_memberships` shows `data` is optional. -/
structure GetOrgMembershipResponse where
  data : Option GetOrgMembershipData
  errors : Option (List GraphqlError)

/-- An API key issued for a newly created service. -/
structure ApiKey where
  token : String

/-- The created service: id and API keys. -/
structure NewService where
  id : String
  apiKeys : List ApiKey

/-- Payload of the create-graph mutation. -/
structure CreateGraphData where
  newService : NewService

/-- Modelled from the spec: the response envelope instantiated at the
create-graph payload; `create_new_graph` reads both `errors` and `data`,
each optional. -/
structure CreateGraphResponse where
  data : Option CreateGraphData
  errors : Option (List GraphqlError)

/-- Variables of the create-graph mutation (`client.rs` lines 95-98). -/
structure CreateGraphVariables where
  graphID : String
  accountID : String

/-- Operation error: a message and a user-actionable flag
(`client.rs` lines 17-20). -/
structure GraphqlOperationError where
  message : String
  user_error : Bool
deriving DecidableEq

/-- The query envelope (`client.rs` lines 22-26): query text and an
optional pre-serialized variables string.  The source field is named
`variables`; that name is reserved in Lean, so the field is `vars` here,
while the serialized JSON key stays `"variables"`. -/
structure GraphqlQuery where
  query : String
  vars : Option String

/-- Serde serialization shape of `CreateGraphVariables` (derive order:
declared fields in order, strings as JSON strings). -/
def CreateGraphVariables.toJson (v : CreateGraphVariables) : Json :=
  .obj [("graphID", .str v.graphID), ("accountID", .str v.accountID)]

/-- Serde serialization shape of the `GraphqlQuery` envelope: the derive
carries no skip attribute, so `variables: None` serializes as JSON
`null`, and `Some(s)` as the JSON string `s`. -/
def GraphqlQuery.toJson (q : GraphqlQuery) : Json :=
  .obj [("query", .str q.query),
        ("variables", match q.vars with | some s => .str s | none => .null)]

/-- The serialized request body, `serde_json::to_string(&query)`
(`client.rs` line 47). -/
def requestBody (q : GraphqlQuery) : String := q.toJson.render

/-- Outcome of a fallible computation that may also abort the process:
`crash` models a Rust panic (`panic!`, `Option::unwrap` on `None`,
out-of-bounds indexing). -/
inductive POutcome (ε α : Type) where
  | ok (a : α)
  | err (e : ε)
  | crash (msg : String)
deriving DecidableEq

/-- Outcome of the HTTP POST, as seen by `send_query`: either the
response body text, or a transport-level failure. -/
inductive SendResult where
  | ok (text : String)
  | err (e : String)

/-- Generic executor (`client.rs` lines 46-61).  `transport` maps the
request body to the transport outcome; `dec` is the typed JSON decode of
the response text (serde at type `T`).  On transport failure the source
runs `panic!(e)` (line 51): the call crashes instead of returning. -/
def send_query {T : Type} (transport : String → SendResult)
    (dec : String → Except String T) (query : GraphqlQuery) : POutcome String T :=
  let query_body := requestBody query
  match transport query_body with
  | .err e => .crash e
  | .ok text =>
    match dec text with
    | .ok r => .ok r
    | .error e => .err e

/-- Operation helper with variables (`client.rs` lines 63-67): serializes
the variables to a string and wraps them in the envelope. -/
def execute_operation {T : Type} (transport : String → SendResult)
    (dec : String → Except String T) (operation_string : String)
    (vs : Json) : POutcome String T :=
  let vars_string := vs.render
  send_query transport dec { query := operation_string, vars := some vars_string }

/-- Operation helper without variables (`client.rs` lines 69-72). -/
def execute_operation_no_variables {T : Type} (transport : String → SendResult)
    (dec : String → Except String T) (operation_string : String) : POutcome String T :=
  send_query transport dec { query := operation_string, vars := none }

/-- The fixed membership query text (`client.rs` lines 123-135). -/
def GET_ORG_MEMBERSHIPS_QUERY : String :=
  "\nquery GetOrgMemberships \x7b\n  me \x7b\n    ...on User \x7b\n      memberships \x7b\n         account \x7b\n           id\n         \x7d\n      \x7d\n    \x7d\n  \x7d\n\x7d\n"

/-- The fixed create-graph mutation text (`client.rs` lines 137-146). -/
def CREATE_GRAPH_QUERY : String :=
  "\nmutation CreateGraph($accountID: ID!, $graphID: ID!) \x7b\n  newService(accountId: $accountID, id: $graphID) \x7b\n    id\n    apiKeys \x7b\n      token\n    \x7d\n  \x7d\n\x7d\n"

/-- Domain operation `get_org_memberships` (`client.rs` lines 74-92).
Executes the membership query; on executor failure returns the fixed
fetch error; then runs `result.data.unwrap().me` — a crash when `data` is
absent — and either collects the account ids into a set or returns the
authentication error. -/
def get_org_memberships (transport : String → SendResult)
    (dec : String → Except String GetOrgMembershipResponse) :
    POutcome String (Finset String) :=
  match execute_operation_no_variables transport dec GET_ORG_MEMBERSHIPS_QUERY with
  | .crash m => .crash m
  | .err _ => .err "Could not fetch organizations"
  | .ok result =>
    match result.data with
    | none => .crash "called Option.unwrap on a None value"
    | some d =>
      match d.me with
      | some me => .ok (me.memberships.map (fun it => it.account.id)).toFinset
      | none => .err "Could not authenticate. Please check that your auth token is up-to-date"

/-- Domain operation `create_new_graph` (`client.rs` lines 94-120).
Builds the variables, executes the mutation; maps executor failure to a
non-user error; joins any `errors` entries with newlines; errors when
`data` is absent; otherwise returns `apiKeys[0].token` — a crash when the
key list is empty. -/
def create_new_graph (transport : String → SendResult)
    (dec : String → Except String CreateGraphResponse)
    (graph_id : String) (account_id : String) : POutcome GraphqlOperationError String :=
  let vs : CreateGraphVariables := { graphID := graph_id, accountID := account_id }
  match execute_operation transport dec CREATE_GRAPH_QUERY vs.toJson with
  | .crash m => .crash m
  | .err message => .err { message := message, user_error := false }
  | .ok result =>
    match result.errors with
    | some errs =>
      .err { message := String.intercalate "\n" (errs.map GraphqlError.message),
             user_error := false }
    | none =>
      match result.data with
      | none => .err { message := "Got no data????", user_error := false }
      | some data =>
        match data.newService.apiKeys with
        | [] => .crash "index out of bounds: the len is 0 but the index is 0"
        | k :: _ => .ok k.token


/-- The request body `get_org_memberships` sends: the membership query in
an envelope with no variables (`client.rs` lines 69-72, 74-76). -/
def membershipRequestBody : String :=
  requestBody { query := GET_ORG_MEMBERSHIPS_QUERY, vars := none }

/-- The request body `create_new_graph` sends for the given graph and
account ids (`client.rs` lines 63-67, 94-100). -/
def createGraphRequestBody (gid aid : String) : String :=
  requestBody { query := CREATE_GRAPH_QUERY,
                vars := some (Json.render (CreateGraphVariables.toJson ⟨gid, aid⟩)) }

/-- The request body built by `execute_operation` for operation text `Q`
and variables `V`: the variables are serialized to a string first, then
the envelope is serialized (`client.rs` lines 47, 63-66). -/
def executeOperationBody (Q : String) (V : Json) : String :=
  requestBody { query := Q, vars := some (Json.render V) }


/-! ## Correctness of the JSON codec model -/

theorem digitChar_toNat {m : Nat} (h : m < 10) : (digitChar m).toNat = 48 + m := by
  interval_cases m <;> decide

theorem hexVal_hexChar {m : Nat} (h : m < 16) : hexVal (hexChar m) = m := by
  interval_cases m <;> decide

theorem digitRun_append (ds rest : List Char)
    (hds : ∀ c ∈ ds, 48 ≤ c.toNat ∧ c.toNat ≤ 57) (hrest : noDigitHead rest) :
    digitRun (ds ++ rest) = (ds.map (fun c => c.toNat - 48), rest) := by
  induction ds with
  | nil =>
    cases rest with
    | nil => rfl
    | cons c cs => simpa [digitRun, noDigitHead] using fun h1 h2 => hrest ⟨h1, h2⟩
  | cons c ds ih =>
    have hc := hds c (List.mem_cons_self ..)
    simp only [List.cons_append, digitRun, if_pos hc, List.map_cons]
    rw [List.append_eq, ih (fun x hx => hds x (List.mem_cons_of_mem _ hx))]

theorem foldr_eq_ofDigits (L : List Nat) :
    L.foldr (fun d a => 10 * a + d) 0 = Nat.ofDigits 10 L := by
  induction L with
  | nil => simp [Nat.ofDigits]
  | cons d L ih => simp [Nat.ofDigits_cons, ih]; ring

theorem natChars_digits (n : Nat) : ∀ c ∈ natChars n, 48 ≤ c.toNat ∧ c.toNat ≤ 57 := by
  intro c hc
  unfold natChars at hc
  by_cases h : n = 0
  · simp [h] at hc
    simp [hc]
  · rw [if_neg h, List.mem_map] at hc
    obtain ⟨d, hd, rfl⟩ := hc
    rw [List.mem_reverse] at hd
    have : d < 10 := Nat.digits_lt_base (by norm_num) hd
    rw [digitChar_toNat this]
    omega

theorem digitsVal_natChars (n : Nat) :
    digitsVal ((natChars n).map (fun c => c.toNat - 48)) = n := by
  unfold natChars
  by_cases h : n = 0
  · simp [h, digitsVal]
  · rw [if_neg h, List.map_map]
    have hmap : ((Nat.digits 10 n).reverse.map fun d => (digitChar d).toNat - 48)
        = (Nat.digits 10 n).reverse := by
      conv_rhs => rw [← List.map_id ((Nat.digits 10 n).reverse)]
      apply List.map_congr_left
      intro d hd
      rw [List.mem_reverse] at hd
      have hlt : d < 10 := Nat.digits_lt_base (by norm_num) hd
      rw [digitChar_toNat hlt]
      simp only [id]
      omega
    simp only [Function.comp_def]
    rw [hmap]
    unfold digitsVal
    rw [List.foldl_reverse, foldr_eq_ofDigits, Nat.ofDigits_digits]

theorem natChars_ne_nil (n : Nat) : natChars n ≠ [] := by
  unfold natChars
  by_cases h : n = 0
  · simp [h]
  · rw [if_neg h]
    simp [Nat.digits_ne_nil_iff_ne_zero, h]

theorem parseNat_append (n : Nat) (rest : List Char) (hrest : noDigitHead rest) :
    parseNat (natChars n ++ rest) = some (n, rest) := by
  unfold parseNat
  rw [digitRun_append _ _ (natChars_digits n) hrest]
  cases hmk : (natChars n).map (fun c => c.toNat - 48) with
  | nil => exact absurd (List.map_eq_nil_iff.mp hmk) (natChars_ne_nil n)
  | cons d ds =>
    show some (digitsVal (d :: ds), rest) = some (n, rest)
    rw [← hmk, digitsVal_natChars]

theorem parseInt_append (n : Int) (rest : List Char) (hrest : noDigitHead rest) :
    parseInt (intChars n ++ rest) = some (n, rest) := by
  unfold intChars
  by_cases hneg : n < 0
  · rw [if_pos hneg]
    show parseInt ('-' :: (natChars n.natAbs ++ rest)) = _
    show (parseNat (natChars n.natAbs ++ rest)).map (fun p => (-(p.1 : Int), p.2)) = _
    rw [parseNat_append _ _ hrest]
    show some ((-(n.natAbs : Int), rest)) = some (n, rest)
    have h : -(n.natAbs : Int) = n := by omega
    rw [h]
  · rw [if_neg hneg]
    obtain ⟨c, t, hct⟩ : ∃ c t, natChars n.natAbs = c :: t := by
      cases h : natChars n.natAbs with
      | nil => exact absurd h (natChars_ne_nil _)
      | cons c t => exact ⟨c, t, rfl⟩
    have hc : 48 ≤ c.toNat ∧ c.toNat ≤ 57 :=
      natChars_digits n.natAbs c (by rw [hct]; exact List.mem_cons_self ..)
    have hexp : natChars n.natAbs ++ rest = c :: (t ++ rest) := by
      rw [hct, List.cons_append]
    rw [hexp]
    rw [parseInt.eq_def]
    split
    · next cs' heq =>
        exfalso
        injection heq with hc' _
        rw [hc'] at hc
        revert hc
        decide
    · next =>
        rw [← hexp, parseNat_append _ _ hrest]
        show some (((n.natAbs : Nat) : Int), rest) = some (n, rest)
        have h : ((n.natAbs : Nat) : Int) = n := by omega
        rw [h]

theorem psb_quote (L : List Char) : parseStrBody ('"' :: L) = some ([], L) := rfl

theorem psb_escQuote (L : List Char) :
    parseStrBody ('\\' :: '"' :: L) = (parseStrBody L).map (fun p => ('"' :: p.1, p.2)) := rfl

theorem psb_escBackslash (L : List Char) :
    parseStrBody ('\\' :: '\\' :: L) = (parseStrBody L).map (fun p => ('\\' :: p.1, p.2)) := rfl

theorem psb_escN (L : List Char) :
    parseStrBody ('\\' :: 'n' :: L) = (parseStrBody L).map (fun p => ('\n' :: p.1, p.2)) := rfl

theorem psb_escT (L : List Char) :
    parseStrBody ('\\' :: 't' :: L) = (parseStrBody L).map (fun p => ('\t' :: p.1, p.2)) := rfl

theorem psb_escR (L : List Char) :
    parseStrBody ('\\' :: 'r' :: L) = (parseStrBody L).map (fun p => ('\r' :: p.1, p.2)) := rfl

theorem psb_escU (h1 h2 h3 h4 : Char) (L : List Char) :
    parseStrBody ('\\' :: 'u' :: h1 :: h2 :: h3 :: h4 :: L) =
      (parseStrBody L).map (fun p =>
        (Char.ofNat (4096 * hexVal h1 + 256 * hexVal h2 + 16 * hexVal h3 + hexVal h4) :: p.1,
         p.2)) := rfl

theorem psb_plain (c : Char) (L : List Char) (h1 : c ≠ '"') (h2 : c ≠ '\\') :
    parseStrBody (c :: L) = (parseStrBody L).map (fun p => (c :: p.1, p.2)) := by
  rw [parseStrBody.eq_def]
  split
  · next heq => exact absurd heq (List.cons_ne_nil _ _)
  · next heq => injection heq with hc _; exact absurd hc h1
  · next heq => injection heq with hc _; exact absurd hc h2
  · next heq =>
      injection heq with hc hL
      rw [hc, hL]

theorem parseStrBody_append (cs rest : List Char) :
    parseStrBody (escBody cs ++ '"' :: rest) = some (cs, rest) := by
  induction cs with
  | nil => rfl
  | cons c cs ih =>
    have hesc : escBody (c :: cs) = escChar c ++ escBody cs := by
      simp only [escBody, List.map_cons, List.flatten_cons]
    rw [hesc, List.append_assoc]
    unfold escChar
    by_cases h1 : c = '"'
    · rw [if_pos h1, List.cons_append, List.cons_append, List.nil_append]
      rw [psb_escQuote, ih, h1]
      rfl
    rw [if_neg h1]
    by_cases h2 : c = '\\'
    · rw [if_pos h2, List.cons_append, List.cons_append, List.nil_append]
      rw [psb_escBackslash, ih, h2]
      rfl
    rw [if_neg h2]
    by_cases h3 : c = '\n'
    · rw [if_pos h3, List.cons_append, List.cons_append, List.nil_append]
      rw [psb_escN, ih, h3]
      rfl
    rw [if_neg h3]
    by_cases h4 : c = '\t'
    · rw [if_pos h4, List.cons_append, List.cons_append, List.nil_append]
      rw [psb_escT, ih, h4]
      rfl
    rw [if_neg h4]
    by_cases h5 : c = '\r'
    · rw [if_pos h5, List.cons_append, List.cons_append, List.nil_append]
      rw [psb_escR, ih, h5]
      rfl
    rw [if_neg h5]
    by_cases h6 : c.toNat < 32
    · rw [if_pos h6]
      simp only [List.cons_append, List.nil_append]
      rw [psb_escU, ih]
      have hv : 4096 * hexVal '0' + 256 * hexVal '0' +
          16 * hexVal (hexChar (c.toNat / 16)) + hexVal (hexChar (c.toNat % 16)) = c.toNat := by
        rw [hexVal_hexChar (by omega : c.toNat / 16 < 16),
            hexVal_hexChar (by omega : c.toNat % 16 < 16)]
        have h0 : hexVal '0' = 0 := rfl
        rw [h0]
        omega
      rw [hv, Char.ofNat_toNat]
      rfl
    · rw [if_neg h6]
      simp only [List.cons_append, List.nil_append]
      rw [psb_plain c _ h1 h2, ih]
      rfl

theorem pv_null (fuel : Nat) (L : List Char) :
    parseValue (fuel + 1) ('n' :: 'u' :: 'l' :: 'l' :: L) = some (.null, L) := rfl

theorem pv_true (fuel : Nat) (L : List Char) :
    parseValue (fuel + 1) ('t' :: 'r' :: 'u' :: 'e' :: L) = some (.bool true, L) := rfl

theorem pv_false (fuel : Nat) (L : List Char) :
    parseValue (fuel + 1) ('f' :: 'a' :: 'l' :: 's' :: 'e' :: L) = some (.bool false, L) := rfl

theorem pv_str (fuel : Nat) (L : List Char) :
    parseValue (fuel + 1) ('"' :: L) =
      (parseStrBody L).map (fun p => (.str ⟨p.1⟩, p.2)) := rfl

theorem pv_arr_nil (fuel : Nat) (L : List Char) :
    parseValue (fuel + 1) ('[' :: ']' :: L) = some (.arr [], L) := rfl

theorem pv_obj_nil (fuel : Nat) (L : List Char) :
    parseValue (fuel + 1) ('{' :: '}' :: L) = some (.obj [], L) := rfl

theorem pv_arr_cons (fuel : Nat) (c : Char) (L : List Char) (h : c ≠ ']') :
    parseValue (fuel + 1) ('[' :: c :: L) =
      (parseElems fuel (c :: L)).map (fun p => (.arr p.1, p.2)) := by
  show (match c :: L with
    | ']' :: r => some (Json.arr [], r)
    | _ => (parseElems fuel (c :: L)).map
        (fun (p : List Json × List Char) => (Json.arr p.1, p.2))) = _
  split
  · next heq => injection heq with hc _; exact absurd hc h
  · rfl

theorem pv_obj_cons (fuel : Nat) (c : Char) (L : List Char) (h : c ≠ '}') :
    parseValue (fuel + 1) ('{' :: c :: L) =
      (parseFields fuel (c :: L)).map (fun p => (.obj p.1, p.2)) := by
  show (match c :: L with
    | '}' :: r => some (Json.obj [], r)
    | _ => (parseFields fuel (c :: L)).map
        (fun (p : List (String × Json) × List Char) => (Json.obj p.1, p.2))) = _
  split
  · next heq => injection heq with hc _; exact absurd hc h
  · rfl

theorem pv_int (fuel : Nat) (c : Char) (t : List Char)
    (hc : c = '-' ∨ (48 ≤ c.toNat ∧ c.toNat ≤ 57)) :
    parseValue (fuel + 1) (c :: t) =
      (parseInt (c :: t)).map (fun p => (.num p.1, p.2)) := by
  have hn : c ≠ 'n' := by rintro rfl; rcases hc with h | h; repeat revert h; try decide
  have ht : c ≠ 't' := by rintro rfl; rcases hc with h | h; repeat revert h; try decide
  have hf : c ≠ 'f' := by rintro rfl; rcases hc with h | h; repeat revert h; try decide
  have hq : c ≠ '"' := by rintro rfl; rcases hc with h | h; repeat revert h; try decide
  have hb : c ≠ '[' := by rintro rfl; rcases hc with h | h; repeat revert h; try decide
  have hr : c ≠ '{' := by rintro rfl; rcases hc with h | h; repeat revert h; try decide
  show (if c = 'n' then
          (match t with | 'u' :: 'l' :: 'l' :: r => some (Json.null, r) | _ => none)
        else if c = 't' then
          (match t with | 'r' :: 'u' :: 'e' :: r => some (Json.bool true, r) | _ => none)
        else if c = 'f' then
          (match t with | 'a' :: 'l' :: 's' :: 'e' :: r => some (Json.bool false, r) | _ => none)
        else if c = '"' then (parseStrBody t).map (fun p => (Json.str ⟨p.1⟩, p.2))
        else if c = '[' then
          (match t with
           | ']' :: r => some (Json.arr [], r)
           | _ => (parseElems fuel t).map (fun p => (Json.arr p.1, p.2)))
        else if c = '{' then
          (match t with
           | '}' :: r => some (Json.obj [], r)
           | _ => (parseFields fuel t).map (fun p => (Json.obj p.1, p.2)))
        else (parseInt (c :: t)).map (fun p => (Json.num p.1, p.2))) = _
  rw [if_neg hn, if_neg ht, if_neg hf, if_neg hq, if_neg hb, if_neg hr]

theorem pe_step (fuel : Nat) (cs : List Char) :
    parseElems (fuel + 1) cs =
      match parseValue fuel cs with
      | none => none
      | some (e, rest) =>
        match rest with
        | ',' :: rest' => (parseElems fuel rest').map (fun p => (e :: p.1, p.2))
        | ']' :: rest' => some ([e], rest')
        | _ => none := rfl

theorem pf_step (fuel : Nat) (cs' : List Char) :
    parseFields (fuel + 1) ('"' :: cs') =
      match parseStrBody cs' with
      | none => none
      | some (k, rest) =>
        match rest with
        | ':' :: rest' =>
          match parseValue fuel rest' with
          | none => none
          | some (v, rest'') =>
            match rest'' with
            | ',' :: r3 => (parseFields fuel r3).map (fun p => ((⟨k⟩, v) :: p.1, p.2))
            | '}' :: r3 => some ([(⟨k⟩, v)], r3)
            | _ => none
        | _ => none := rfl

theorem ndh_nil : noDigitHead ([] : List Char) := trivial

theorem ndh_of (c : Char) (X : List Char) (h : ¬(48 ≤ c.toNat ∧ c.toNat ≤ 57)) :
    noDigitHead (c :: X) := h

theorem natChars_cons (n : Nat) :
    ∃ c t, natChars n = c :: t ∧ (48 ≤ c.toNat ∧ c.toNat ≤ 57) := by
  cases h : natChars n with
  | nil => exact absurd h (natChars_ne_nil n)
  | cons c t =>
    exact ⟨c, t, rfl, natChars_digits n c (by rw [h]; exact List.mem_cons_self ..)⟩

theorem intChars_head (n : Int) :
    ∃ c t, intChars n = c :: t ∧ (c = '-' ∨ (48 ≤ c.toNat ∧ c.toNat ≤ 57)) := by
  unfold intChars
  by_cases hneg : n < 0
  · rw [if_pos hneg]
    exact ⟨'-', natChars n.natAbs, rfl, Or.inl rfl⟩
  · rw [if_neg hneg]
    obtain ⟨c, t, h, hd⟩ := natChars_cons n.natAbs
    exact ⟨c, t, h, Or.inr hd⟩

theorem renderJson_head (v : Json) :
    ∃ c t, renderJson v = c :: t ∧ c ≠ ']' ∧ c ≠ '}' := by
  cases v with
  | null => exact ⟨'n', ['u', 'l', 'l'], by simp only [renderJson], by decide, by decide⟩
  | bool b =>
    cases b with
    | false => exact ⟨'f', ['a', 'l', 's', 'e'], by simp only [renderJson], by decide, by decide⟩
    | true => exact ⟨'t', ['r', 'u', 'e'], by simp only [renderJson], by decide, by decide⟩
  | num n =>
    obtain ⟨c, t, h, hd⟩ := intChars_head n
    refine ⟨c, t, by simp [renderJson, h], ?_, ?_⟩
    · rcases hd with rfl | hd
      · decide
      · rintro rfl; revert hd; decide
    · rcases hd with rfl | hd
      · decide
      · rintro rfl; revert hd; decide
  | str s =>
    exact ⟨'"', escBody s.data ++ ['"'], by simp [renderJson, strChars], by decide, by decide⟩
  | arr es =>
    exact ⟨'[', renderElems es ++ [']'], by simp [renderJson], by decide, by decide⟩
  | obj fs =>
    exact ⟨'{', renderFields fs ++ ['}'], by simp [renderJson], by decide, by decide⟩

theorem parse_rt : ∀ fuel : Nat,
    (∀ v rest, jdepth v < fuel → noDigitHead rest →
      parseValue fuel (renderJson v ++ rest) = some (v, rest)) ∧
    (∀ es rest, es ≠ [] → depthElems es < fuel →
      parseElems fuel (renderElems es ++ ']' :: rest) = some (es, rest)) ∧
    (∀ fs rest, fs ≠ [] → depthFields fs < fuel →
      parseFields fuel (renderFields fs ++ '}' :: rest) = some (fs, rest)) := by
  intro fuel
  induction fuel with
  | zero =>
    exact ⟨fun v rest h _ => absurd h (Nat.not_lt_zero _),
           fun es rest _ h => absurd h (Nat.not_lt_zero _),
           fun fs rest _ h => absurd h (Nat.not_lt_zero _)⟩
  | succ fuel ih =>
    obtain ⟨ihv, ihe, ihf⟩ := ih
    refine ⟨?_, ?_, ?_⟩
    · intro v rest hd hrest
      cases v with
      | null =>
        rw [show renderJson Json.null = ['n', 'u', 'l', 'l'] from by simp only [renderJson]]
        exact pv_null fuel rest
      | bool b =>
        cases b with
        | false =>
          rw [show renderJson (Json.bool false) = ['f', 'a', 'l', 's', 'e'] from by
            simp only [renderJson]]
          exact pv_false fuel rest
        | true =>
          rw [show renderJson (Json.bool true) = ['t', 'r', 'u', 'e'] from by
            simp only [renderJson]]
          exact pv_true fuel rest
      | num n =>
        rw [show renderJson (Json.num n) = intChars n from by simp [renderJson]]
        obtain ⟨c, t, hct, hc⟩ := intChars_head n
        rw [hct, List.cons_append, pv_int fuel c (t ++ rest) hc, ← List.cons_append, ← hct,
            parseInt_append n rest hrest]
        rfl
      | str s =>
        rw [show renderJson (Json.str s) = '"' :: (escBody s.data ++ ['"']) from by
          simp [renderJson, strChars]]
        rw [List.cons_append, pv_str, List.append_assoc, List.singleton_append,
            parseStrBody_append]
        rfl
      | arr es =>
        cases es with
        | nil =>
          rw [show renderJson (Json.arr []) = ['[', ']'] from by
            simp [renderJson, renderElems]]
          exact pv_arr_nil fuel rest
        | cons e es =>
          rw [show renderJson (Json.arr (e :: es)) = '[' :: (renderElems (e :: es) ++ [']'])
            from by simp [renderJson]]
          obtain ⟨c, t, hct, hc1, _⟩ := renderJson_head e
          obtain ⟨tail, htail⟩ : ∃ tail, renderElems (e :: es) = renderJson e ++ tail := by
            cases es with
            | nil => exact ⟨[], by simp [renderElems]⟩
            | cons e2 es2 => exact ⟨',' :: renderElems (e2 :: es2), by simp [renderElems]⟩
          rw [List.cons_append, List.append_assoc, List.singleton_append, htail,
              List.append_assoc, hct, List.cons_append, pv_arr_cons fuel c _ hc1,
              ← List.cons_append, ← hct, ← List.append_assoc, ← htail]
          have hdep : depthElems (e :: es) < fuel := by
            have h1 : jdepth (Json.arr (e :: es)) = depthElems (e :: es) + 1 := by simp [jdepth]
            omega
          rw [ihe (e :: es) rest (List.cons_ne_nil _ _) hdep]
          rfl
      | obj fs =>
        cases fs with
        | nil =>
          rw [show renderJson (Json.obj []) = ['{', '}'] from by
            simp [renderJson, renderFields]]
          exact pv_obj_nil fuel rest
        | cons f fs =>
          obtain ⟨k, val⟩ := f
          rw [show renderJson (Json.obj ((k, val) :: fs)) =
              '{' :: (renderFields ((k, val) :: fs) ++ ['}']) from by simp [renderJson]]
          obtain ⟨tail, htail⟩ : ∃ tail, renderFields ((k, val) :: fs) = '"' :: tail := by
            cases fs with
            | nil =>
              exact ⟨escBody k.data ++ ['"'] ++ ':' :: renderJson val, by
                simp [renderFields, strChars, List.append_assoc]⟩
            | cons f2 fs2 =>
              exact ⟨escBody k.data ++ ['"'] ++ ':' :: renderJson val ++
                  ',' :: renderFields (f2 :: fs2), by
                simp [renderFields, strChars, List.append_assoc]⟩
          rw [List.cons_append, List.append_assoc, List.singleton_append, htail,
              List.cons_append, pv_obj_cons fuel '"' _ (by decide), ← List.cons_append,
              ← htail]
          have hdep : depthFields ((k, val) :: fs) < fuel := by
            have h1 : jdepth (Json.obj ((k, val) :: fs)) = depthFields ((k, val) :: fs) + 1 := by
              simp [jdepth]
            omega
          rw [ihf ((k, val) :: fs) rest (List.cons_ne_nil _ _) hdep]
          rfl
    · intro es rest hne hdep
      cases es with
      | nil => exact absurd rfl hne
      | cons e es =>
        have hje : jdepth e < fuel := by
          have h1 : depthElems (e :: es) = max (jdepth e) (depthElems es) + 1 := by
            simp [depthElems]
          have h2 := le_max_left (jdepth e) (depthElems es)
          omega
        cases es with
        | nil =>
          rw [show renderElems [e] = renderJson e from by simp [renderElems]]
          rw [pe_step, ihv e (']' :: rest) hje (ndh_of ']' rest (by decide))]
          rfl
        | cons e2 es2 =>
          rw [show renderElems (e :: e2 :: es2) = renderJson e ++ ',' :: renderElems (e2 :: es2)
            from by simp [renderElems]]
          rw [List.append_assoc, List.cons_append]
          rw [pe_step, ihv e _ hje (ndh_of ',' _ (by decide))]
          have hd2 : depthElems (e2 :: es2) < fuel := by
            have h1 : depthElems (e :: e2 :: es2) =
                max (jdepth e) (depthElems (e2 :: es2)) + 1 := by simp [depthElems]
            have h2 := le_max_right (jdepth e) (depthElems (e2 :: es2))
            omega
          show (parseElems fuel (renderElems (e2 :: es2) ++ ']' :: rest)).map
            (fun p => (e :: p.1, p.2)) = _
          rw [ihe (e2 :: es2) rest (List.cons_ne_nil _ _) hd2]
          rfl
    · intro fs rest hne hdep
      cases fs with
      | nil => exact absurd rfl hne
      | cons f fs =>
        obtain ⟨k, val⟩ := f
        have hjv : jdepth val < fuel := by
          have h1 : depthFields ((k, val) :: fs) = max (jdepth val) (depthFields fs) + 1 := by
            simp [depthFields]
          have h2 := le_max_left (jdepth val) (depthFields fs)
          omega
        have hval := fun (X : List Char) (c : Char) (hc : ¬(48 ≤ c.toNat ∧ c.toNat ≤ 57)) =>
          ihv val (c :: X) hjv (ndh_of c X hc)
        cases fs with
        | nil =>
          have hsh : renderFields [(k, val)] ++ '}' :: rest =
              '"' :: (escBody k.data ++ '"' :: ':' :: (renderJson val ++ '}' :: rest)) := by
            simp [renderFields, strChars, List.append_assoc]
          rw [hsh, pf_step, parseStrBody_append]
          have hv := hval rest '}' (by decide)
          simp only [hv]
        | cons f2 fs2 =>
          have hsh : renderFields ((k, val) :: f2 :: fs2) ++ '}' :: rest =
              '"' :: (escBody k.data ++ '"' :: ':' ::
                (renderJson val ++ ',' :: (renderFields (f2 :: fs2) ++ '}' :: rest))) := by
            simp [renderFields, strChars, List.append_assoc]
          rw [hsh, pf_step, parseStrBody_append]
          have hv := hval (renderFields (f2 :: fs2) ++ '}' :: rest) ',' (by decide)
          have hd2 : depthFields (f2 :: fs2) < fuel := by
            have h1 : depthFields ((k, val) :: f2 :: fs2) =
                max (jdepth val) (depthFields (f2 :: fs2)) + 1 := by simp [depthFields]
            have h2 := le_max_right (jdepth val) (depthFields (f2 :: fs2))
            omega
          simp only [hv]
          show (parseFields fuel (renderFields (f2 :: fs2) ++ '}' :: rest)).map
            (fun p => ((⟨k.data⟩, val) :: p.1, p.2)) = _
          rw [ihf (f2 :: fs2) rest (List.cons_ne_nil _ _) hd2]
          rfl

theorem depth_le_len_all : ∀ n : Nat,
    (∀ v : Json, sizeOf v ≤ n → jdepth v ≤ (renderJson v).length) ∧
    (∀ es : List Json, sizeOf es ≤ n → depthElems es ≤ (renderElems es).length + 1) ∧
    (∀ fs : List (String × Json), sizeOf fs ≤ n →
      depthFields fs ≤ (renderFields fs).length + 1) := by
  intro n
  induction n with
  | zero =>
    refine ⟨fun v h => ?_, fun es h => ?_, fun fs h => ?_⟩
    · exfalso; cases v <;> simp at h
    · exfalso; cases es <;> simp at h
    · exfalso; cases fs <;> simp at h
  | succ n ih =>
    obtain ⟨ihv, ihe, ihf⟩ := ih
    refine ⟨fun v h => ?_, fun es h => ?_, fun fs h => ?_⟩
    · cases v with
      | null => simp [jdepth, renderJson]
      | bool b => cases b <;> simp [jdepth, renderJson]
      | num m =>
        obtain ⟨c, t, hct, _⟩ := intChars_head m
        simp [jdepth, renderJson, hct]
      | str s => simp [jdepth, renderJson, strChars]
      | arr es =>
        have hs : sizeOf es ≤ n := by
          have h2 := h; simp only [Json.arr.sizeOf_spec] at h2; omega
        have h1 := ihe es hs
        simp only [jdepth, renderJson, List.length_append, List.length_cons]
        omega
      | obj fs =>
        have hs : sizeOf fs ≤ n := by
          have h2 := h; simp only [Json.obj.sizeOf_spec] at h2; omega
        have h1 := ihf fs hs
        simp only [jdepth, renderJson, List.length_append, List.length_cons]
        omega
    · cases es with
      | nil => simp [depthElems, renderElems]
      | cons e es =>
        have hse : sizeOf e ≤ n := by
          have h2 := h; simp only [List.cons.sizeOf_spec] at h2; omega
        have h1 := ihv e hse
        cases es with
        | nil =>
          simp only [depthElems, renderElems, List.length_cons]
          omega
        | cons e2 es2 =>
          have hs2 : sizeOf (e2 :: es2) ≤ n := by
            have h2 := h; simp only [List.cons.sizeOf_spec] at h2 ⊢; omega
          have h3 := ihe (e2 :: es2) hs2
          rw [show depthElems (e :: e2 :: es2) = max (jdepth e) (depthElems (e2 :: es2)) + 1
            from by simp [depthElems]]
          rw [show renderElems (e :: e2 :: es2) = renderJson e ++ ',' :: renderElems (e2 :: es2)
            from by simp [renderElems]]
          simp only [List.length_append, List.length_cons]
          omega
    · cases fs with
      | nil => simp [depthFields, renderFields]
      | cons f fs =>
        obtain ⟨k, val⟩ := f
        have hsv : sizeOf val ≤ n := by
          have h2 := h
          simp only [List.cons.sizeOf_spec, Prod.mk.sizeOf_spec] at h2
          omega
        have h1 := ihv val hsv
        cases fs with
        | nil =>
          simp only [depthFields, renderFields, List.length_append, List.length_cons]
          omega
        | cons f2 fs2 =>
          have hs2 : sizeOf (f2 :: fs2) ≤ n := by
            have h2 := h; simp only [List.cons.sizeOf_spec, Prod.mk.sizeOf_spec] at h2 ⊢; omega
          have h3 := ihf (f2 :: fs2) hs2
          rw [show depthFields ((k, val) :: f2 :: fs2) =
              max (jdepth val) (depthFields (f2 :: fs2)) + 1 from by simp [depthFields]]
          rw [show renderFields ((k, val) :: f2 :: fs2) =
              strChars k ++ ':' :: renderJson val ++ ',' :: renderFields (f2 :: fs2)
            from by simp [renderFields]]
          simp only [List.length_append, List.length_cons]
          omega

theorem jdepth_le_renderLength (v : Json) : jdepth v ≤ (renderJson v).length :=
  (depth_le_len_all (sizeOf v)).1 v le_rfl

/-- The parser inverts the renderer: decoding a rendered JSON value gives
the value back. -/
theorem parse_render (v : Json) : Json.parse (Json.render v) = some v := by
  unfold Json.parse Json.render
  have hlen : (String.mk (renderJson v)).length = (renderJson v).length := rfl
  rw [hlen]
  have hdata : (String.mk (renderJson v)).data = renderJson v := rfl
  rw [hdata]
  have hrt := (parse_rt ((renderJson v).length + 1)).1 v []
    (by have := jdepth_le_renderLength v; omega) ndh_nil
  rw [List.append_nil] at hrt
  rw [hrt]


/-! ## The claims -/

/-- Claim C1: for every decoded membership response in which `data.me` is
present with a list of memberships, `get_org_memberships` returns `Ok` of
the set of the memberships' account identifiers: membership in the
returned set holds exactly when some membership has that account id, so
every returned element comes from a membership, every membership's id is
in the set, and duplicates collapse. -/
theorem spec_c1_memberships_set
    (transport : String → SendResult) (dec : String → Except String GetOrgMembershipResponse)
    (text : String) (r : GetOrgMembershipResponse) (d : GetOrgMembershipData) (me : Me)
    (htr : transport membershipRequestBody = SendResult.ok text)
    (hdec : dec text = Except.ok r) (hdata : r.data = some d) (hme : d.me = some me) :
    ∃ S : Finset String, get_org_memberships transport dec = POutcome.ok S ∧
      ∀ x : String, x ∈ S ↔ ∃ m ∈ me.memberships, m.account.id = x := by
  refine ⟨(me.memberships.map (fun it => it.account.id)).toFinset, ?_, ?_⟩
  · simp only [membershipRequestBody] at htr
    simp only [get_org_memberships, execute_operation_no_variables, send_query,
      htr, hdec, hdata, hme]
  · intro x
    simp [List.mem_toFinset, List.mem_map]

/-- Witness for C1: a response with two memberships on the same account
and one on another; the returned set is characterised by membership. -/
theorem spec_c1_memberships_set_witness :
    ∃ S : Finset String,
      get_org_memberships (fun _ => SendResult.ok "t")
        (fun _ => Except.ok ⟨some ⟨some ⟨[⟨⟨"acct1"⟩⟩, ⟨⟨"acct1"⟩⟩, ⟨⟨"acct2"⟩⟩]⟩⟩, none⟩) =
        POutcome.ok S ∧
      ∀ x : String, x ∈ S ↔
        ∃ m ∈ [(⟨⟨"acct1"⟩⟩ : Membership), ⟨⟨"acct1"⟩⟩, ⟨⟨"acct2"⟩⟩], m.account.id = x :=
  spec_c1_memberships_set _ _ "t" _ _ _ rfl rfl rfl rfl

/-- Claim C2 (code bug in the source): on a transport-level send failure
the source runs `panic!(e)` (`client.rs` line 51), so both
`get_org_memberships` and `create_new_graph` crash instead of returning a
recoverable error, for every decoder, graph id and failure message. -/
theorem spec_c2_transport_failure_crashes (e : String)
    (decM : String → Except String GetOrgMembershipResponse)
    (decC : String → Except String CreateGraphResponse) (gid aid : String) :
    get_org_memberships (fun _ => SendResult.err e) decM = POutcome.crash e ∧
    create_new_graph (fun _ => SendResult.err e) decC gid aid = POutcome.crash e :=
  ⟨rfl, rfl⟩

/-- Claim C3 (code bug in the source): when the decoded response has
`data` absent, `get_org_memberships` crashes on `result.data.unwrap()`
(`client.rs` line 83) instead of returning the authentication error; with
`data` present and `me` absent it does return the authentication error. -/
theorem spec_c3_data_absent_crashes :
    get_org_memberships (fun _ => SendResult.ok "t")
        (fun _ => Except.ok { data := none, errors := none }) =
      POutcome.crash "called Option.unwrap on a None value" ∧
    get_org_memberships (fun _ => SendResult.ok "t")
        (fun _ => Except.ok { data := some { me := none }, errors := none }) =
      POutcome.err "Could not authenticate. Please check that your auth token is up-to-date" :=
  ⟨rfl, rfl⟩

/-- Claim C4 (code bug in the source): with no errors, `data.newService`
present and an empty `apiKeys` list, `create_new_graph` crashes on the
unchecked indexing `apiKeys[0]` (`client.rs` line 119) instead of
returning an explicit error. -/
theorem spec_c4_empty_apikeys_crashes :
    create_new_graph (fun _ => SendResult.ok "t")
        (fun _ => Except.ok { data := some { newService := { id := "gid", apiKeys := [] } },
                              errors := none }) "g" "a" =
      POutcome.crash "index out of bounds: the len is 0 but the index is 0" := rfl

/-- Claim C5: with a non-empty `errors` list, `create_new_graph` returns
one error whose message is the entries' messages joined by newlines and
whose `user_error` is false; for exactly two entries the message is the
first message, a newline, then the second. -/
theorem spec_c5_errors_joined
    (transport : String → SendResult) (dec : String → Except String CreateGraphResponse)
    (gid aid text : String) (r : CreateGraphResponse) (es : List GraphqlError)
    (htr : transport (createGraphRequestBody gid aid) = SendResult.ok text)
    (hdec : dec text = Except.ok r) (herr : r.errors = some es) (hne : es ≠ []) :
    create_new_graph transport dec gid aid =
      POutcome.err { message := String.intercalate "\n" (es.map GraphqlError.message),
                     user_error := false } ∧
    ∀ a b : GraphqlError, es = [a, b] →
      String.intercalate "\n" (es.map GraphqlError.message) =
        a.message ++ "\n" ++ b.message := by
  constructor
  · simp only [createGraphRequestBody] at htr
    simp only [create_new_graph, execute_operation, send_query, htr, hdec, herr]
  · rintro a b rfl
    simp [String.intercalate, String.intercalate.go]

/-- Witness for C5: two error entries yield the two messages joined by a
newline, marked non-user-actionable. -/
theorem spec_c5_errors_joined_witness :
    create_new_graph (fun _ => SendResult.ok "t")
        (fun _ => Except.ok { data := none, errors := some [⟨"m1"⟩, ⟨"m2"⟩] }) "g" "a" =
      POutcome.err { message := String.intercalate "\n"
                       (([⟨"m1"⟩, ⟨"m2"⟩] : List GraphqlError).map GraphqlError.message),
                     user_error := false } ∧
    ∀ a b : GraphqlError, ([⟨"m1"⟩, ⟨"m2"⟩] : List GraphqlError) = [a, b] →
      String.intercalate "\n" (([⟨"m1"⟩, ⟨"m2"⟩] : List GraphqlError).map GraphqlError.message) =
        a.message ++ "\n" ++ b.message :=
  spec_c5_errors_joined _ _ "g" "a" "t" _ _ rfl rfl rfl (List.cons_ne_nil _ _)

/-- Claim C6 counterexample: a decoded membership response carrying both
`errors` and a well-formed `data.me` makes `get_org_memberships` return
success — it never inspects `errors` (`client.rs` lines 74-92) — so
"errors present is treated as failure" fails for `get_org_memberships`. -/
theorem spec_c6_counterexample :
    ({ data := some { me := some { memberships := [{ account := { id := "acct" } }] } },
       errors := some [{ message := "boom" }] } : GetOrgMembershipResponse).errors =
      some [{ message := "boom" }] ∧
    get_org_memberships (fun _ => SendResult.ok "t")
        (fun _ => Except.ok
          { data := some { me := some { memberships := [{ account := { id := "acct" } }] } },
            errors := some [{ message := "boom" }] }) =
      POutcome.ok ({"acct"} : Finset String) := by
  exact ⟨rfl, rfl⟩

/-- Claim C6 amended: `create_new_graph` treats a present `errors` field
as failure regardless of `data` (`client.rs` lines 104-109), but
`get_org_memberships` never inspects `errors`: with `errors` present and
`data.me` well-formed it still returns the membership set. -/
theorem spec_c6_amended :
    (∀ (transport : String → SendResult) (dec : String → Except String CreateGraphResponse)
       (gid aid text : String) (r : CreateGraphResponse) (es : List GraphqlError),
       transport (createGraphRequestBody gid aid) = SendResult.ok text →
       dec text = Except.ok r → r.errors = some es →
       ∃ ge : GraphqlOperationError,
         create_new_graph transport dec gid aid = POutcome.err ge) ∧
    (∀ (transport : String → SendResult) (dec : String → Except String GetOrgMembershipResponse)
       (text : String) (r : GetOrgMembershipResponse) (d : GetOrgMembershipData) (me : Me)
       (es : List GraphqlError),
       transport membershipRequestBody = SendResult.ok text →
       dec text = Except.ok r → r.errors = some es → r.data = some d → d.me = some me →
       get_org_memberships transport dec =
         POutcome.ok ((me.memberships.map (fun it => it.account.id)).toFinset)) := by
  constructor
  · intro transport dec gid aid text r es htr hdec herr
    refine ⟨⟨String.intercalate "\n" (es.map GraphqlError.message), false⟩, ?_⟩
    simp only [createGraphRequestBody] at htr
    simp only [create_new_graph, execute_operation, send_query, htr, hdec, herr]
  · intro transport dec text r d me es htr hdec herr hdata hme
    simp only [membershipRequestBody] at htr
    simp only [get_org_memberships, execute_operation_no_variables, send_query,
      htr, hdec, hdata, hme]

/-- Witness for the amended C6: both halves at concrete responses with
`errors` present. -/
theorem spec_c6_amended_witness :
    (∃ ge : GraphqlOperationError,
        create_new_graph (fun _ => SendResult.ok "t")
          (fun _ => Except.ok { data := none, errors := some [{ message := "boom" }] })
          "g" "a" = POutcome.err ge) ∧
    get_org_memberships (fun _ => SendResult.ok "t")
        (fun _ => Except.ok
          { data := some { me := some { memberships := [{ account := { id := "acct" } }] } },
            errors := some [{ message := "boom" }] }) =
      POutcome.ok ((((⟨[⟨⟨"acct"⟩⟩]⟩ : Me)).memberships.map
        (fun it => it.account.id)).toFinset) :=
  ⟨spec_c6_amended.1 _ _ "g" "a" "t" _ _ rfl rfl rfl,
   spec_c6_amended.2 _ _ "t" _ _ _ _ rfl rfl rfl rfl rfl⟩

/-- Claim C7: round-trip of the query envelope.  `execute_operation`
sends the envelope with the variables serialized to a string; the
serialized body parses back to an object whose `query` field is the
operation text and whose `variables` field holds a string that itself
parses back to the variables value (double encoding). -/
theorem spec_c7_roundtrip (Q : String) (V : Json) :
    (∀ (T : Type) (transport : String → SendResult) (dec : String → Except String T),
        execute_operation transport dec Q V =
          send_query transport dec { query := Q, vars := some (Json.render V) }) ∧
    ∃ S : String,
      Json.parse (executeOperationBody Q V) =
        some (Json.obj [("query", Json.str Q), ("variables", Json.str S)]) ∧
      Json.parse S = some V := by
  refine ⟨fun T transport dec => rfl, Json.render V, ?_, parse_render V⟩
  show Json.parse (Json.render (Json.obj [("query", Json.str Q),
    ("variables", Json.str (Json.render V))])) = _
  exact parse_render _

/-- Claim C8 counterexample: with no variables the serialized request
body still carries a `variables` field — the serde derive has no skip
attribute, so `None` serializes as JSON `null` — refuting "the field is
absent". -/
theorem spec_c8_counterexample :
    Json.parse (requestBody { query := "q", vars := none }) =
      some (Json.obj [("query", Json.str "q"), ("variables", Json.null)]) ∧
    [("query", Json.str "q"), ("variables", Json.null)].lookup "variables" =
      some Json.null := by
  constructor
  · show Json.parse (Json.render (Json.obj [("query", Json.str "q"),
      ("variables", Json.null)])) = _
    exact parse_render _
  · rfl

/-- Claim C8 amended: for every call through
`execute_operation_no_variables` the serialized request body contains a
`variables` field whose value is JSON `null`: present with value null,
not absent and not an empty object. -/
theorem spec_c8_amended (Q : String) :
    (∀ (T : Type) (transport : String → SendResult) (dec : String → Except String T),
        execute_operation_no_variables transport dec Q =
          send_query transport dec { query := Q, vars := none }) ∧
    Json.parse (requestBody { query := Q, vars := none }) =
      some (Json.obj [("query", Json.str Q), ("variables", Json.null)]) := by
  refine ⟨fun T transport dec => rfl, ?_⟩
  show Json.parse (Json.render (Json.obj [("query", Json.str Q),
    ("variables", Json.null)])) = _
  exact parse_render _

/-- Claim C9: every operation error returned by `create_new_graph` has
`user_error = false`; no execution path constructs one with the flag set
(`client.rs` lines 94-120). -/
theorem spec_c9_user_error_false
    (transport : String → SendResult) (dec : String → Except String CreateGraphResponse)
    (gid aid : String) (e : GraphqlOperationError)
    (h : create_new_graph transport dec gid aid = POutcome.err e) :
    e.user_error = false := by
  revert h
  simp only [create_new_graph]
  cases execute_operation transport dec CREATE_GRAPH_QUERY
      (CreateGraphVariables.toJson { graphID := gid, accountID := aid }) with
  | crash m => intro h; nomatch h
  | err m => intro h; injection h with h1; rw [← h1]
  | ok result =>
    obtain ⟨dta, errs⟩ := result
    cases errs with
    | some es => intro h; injection h with h1; rw [← h1]
    | none =>
      cases dta with
      | none => intro h; injection h with h1; rw [← h1]
      | some data =>
        obtain ⟨ns⟩ := data
        obtain ⟨idv, keys⟩ := ns
        cases keys with
        | nil => intro h; nomatch h
        | cons k ks => intro h; nomatch h

/-- Witness for C9: a decode failure produces an error with the flag
false. -/
theorem spec_c9_user_error_false_witness :
    ({ message := "boom", user_error := false } : GraphqlOperationError).user_error = false :=
  spec_c9_user_error_false (fun _ => SendResult.ok "t") (fun _ => Except.error "boom")
    "g" "a" { message := "boom", user_error := false } rfl

/-- Claim C10: a present-but-empty `errors` list still makes
`create_new_graph` fail with the empty joined message, even when `data`
is present and well-formed: the errors check runs before `data` is read
(`client.rs` lines 104-109). -/
theorem spec_c10_empty_errors_list
    (transport : String → SendResult) (dec : String → Except String CreateGraphResponse)
    (gid aid text : String) (r : CreateGraphResponse)
    (htr : transport (createGraphRequestBody gid aid) = SendResult.ok text)
    (hdec : dec text = Except.ok r) (herr : r.errors = some []) :
    create_new_graph transport dec gid aid =
      POutcome.err { message := "", user_error := false } := by
  simp only [createGraphRequestBody] at htr
  simp only [create_new_graph, execute_operation, send_query, htr, hdec, herr,
    List.map_nil]
  rfl

/-- Witness for C10: `errors` is `Some([])` while `data` holds a
well-formed service with one key; the call still fails with an empty
message. -/
theorem spec_c10_empty_errors_list_witness :
    create_new_graph (fun _ => SendResult.ok "t")
      (fun _ => Except.ok
        { data := some { newService := { id := "gid", apiKeys := [{ token := "tok" }] } },
          errors := some [] }) "g" "a" =
      POutcome.err { message := "", user_error := false } :=
  spec_c10_empty_errors_list _ _ "g" "a" "t" _ rfl rfl rfl

end Client
